import Mathlib

/-!
Verification of the association-rule exploration dashboard (`app.py`).

The program loads a precomputed table of association rules (columns
`antecedents`, `consequents`, `support`, `confidence`, `lift`), filters it
by three inclusive lower bounds taken from sliders, and renders summary
metrics, a per-item recommendation list (top 5 by confidence), a directed
graph of the top-20 rules by lift, and the raw table.

The embedding below models the rule table as a `List Rule` with rational
numeric columns, `DataFrame.sort_values` (descending) the way pandas
computes it — an ascending sort whose index order is then reversed, so
equal-key rows come out in reversed input order rather than in a stable
order — the networkx `DiGraph` edge set as an insertion-ordered
association list with overwrite-on-duplicate, and the Streamlit script as
a pure function from the artifact state and control values to the
rendered page.
-/

/-- One row of the persisted rules table (`rules.pkl`): string columns
`antecedents` and `consequents`, rational columns `support`, `confidence`
and `lift`. -/
structure Rule where
  antecedents : String
  consequents : String
  support : ℚ
  confidence : ℚ
  lift : ℚ
deriving DecidableEq, Repr

/-- The slider predicate of `app.py` lines 53-57: all three lower bounds
are inclusive and combined with logical AND. -/
def rulePass (min_sup min_conf min_lift : ℚ) (r : Rule) : Bool :=
  decide (min_sup ≤ r.support) && decide (min_conf ≤ r.confidence) &&
    decide (min_lift ≤ r.lift)

/-- `filtered_df` (`app.py` lines 53-57): the rows of `rules_df` passing
all three threshold predicates, in store order. -/
def filtered_df (rules_df : List Rule) (min_sup min_conf min_lift : ℚ) : List Rule :=
  rules_df.filter (rulePass min_sup min_conf min_lift)

/-- Descending comparison on a numeric key: `keyGe key a b` holds when
`a`'s key is at least `b`'s key. -/
abbrev keyGe (key : Rule → ℚ) (a b : Rule) : Prop := key b ≤ key a

/-- Ascending comparison on a numeric key. -/
abbrev keyLe (key : Rule → ℚ) (a b : Rule) : Prop := key a ≤ key b

instance instKeyLeDecidable (key : Rule → ℚ) : DecidableRel (keyLe key) :=
  fun a b => inferInstanceAs (Decidable (key a ≤ key b))

instance instKeyLeTotal (key : Rule → ℚ) : IsTotal Rule (keyLe key) :=
  ⟨fun a b => le_total (key a) (key b)⟩

instance instKeyLeTrans (key : Rule → ℚ) : IsTrans Rule (keyLe key) :=
  ⟨fun _ _ _ hab hbc => le_trans hab hbc⟩

/-- Model of `DataFrame.sort_values` with `ascending` false on a numeric
column, as pandas computes it (`nargsort` in pandas/core/sorting.py):
the column is argsorted ascending and the resulting indexer is then
reversed. On frames smaller than 16 rows — which covers every concrete
input in this development — numpy's default argsort degenerates to a
stable insertion sort, so the descending result is exactly the reverse
of a stable ascending sort. Consequently rows with equal keys appear in
reversed input order: the descending sort has no stable tie-break. -/
def sort_values (key : Rule → ℚ) (df : List Rule) : List Rule :=
  (List.insertionSort (keyLe key) df).reverse

/-- `specific_rules` (`app.py` line 89): the rows of the filtered view
whose antecedent equals the selected item, sorted by confidence
descending. The caller displays `(specific_rules ...).take 5`
(`app.py` line 95). -/
def specific_rules (fdf : List Rule) (selected_item : String) : List Rule :=
  sort_values Rule.confidence
    (fdf.filter (fun r => decide (r.antecedents = selected_item)))

/-- `graph_data` (`app.py` line 112): the first 20 rows of the filtered
view sorted by lift descending. -/
def graph_data (fdf : List Rule) : List Rule :=
  (sort_values Rule.lift fdf).take 20

/-- A directed edge of the networkx `DiGraph`: source node, target node,
and the `weight` attribute. -/
abbrev Edge := String × String × ℚ

/-- Whether an edge joins nodes `a` to `c`. -/
def edgeMatch (a c : String) (e : Edge) : Bool :=
  decide (e.1 = a ∧ e.2.1 = c)

/-- Whether a rule has antecedent `a` and consequent `c`. -/
def rowMatch (a c : String) (r : Rule) : Bool :=
  decide (r.antecedents = a ∧ r.consequents = c)

/-- `G.add_edge` on a `DiGraph` (`app.py` line 116): if the edge already
exists its weight attribute is overwritten, otherwise the edge is
appended in insertion order. -/
def add_edge (es : List Edge) (a c : String) (w : ℚ) : List Edge :=
  if es.any (edgeMatch a c) then
    es.map (fun e => if edgeMatch a c e then (a, c, w) else e)
  else es ++ [(a, c, w)]

/-- The edge set of the graph built at `app.py` lines 114-116: fold
`add_edge` over the top-20 rows in iteration order. -/
def graph_edges (fdf : List Rule) : List Edge :=
  (graph_data fdf).foldl
    (fun es r => add_edge es r.antecedents r.consequents r.lift) []

/-- The weight of the edge from `a` to `c`, when present. -/
def findEdge (es : List Edge) (a c : String) : Option ℚ :=
  (es.find? (edgeMatch a c)).map (fun e => e.2.2)

/-- The lift of the last row (in list order) with antecedent `a` and
consequent `c`, when one exists. -/
def lastLift (rows : List Rule) (a c : String) : Option ℚ :=
  (rows.reverse.find? (rowMatch a c)).map Rule.lift

/-- Filesystem state of the persisted artifact `rules.pkl`. -/
inductive Artifact
  | missing
  | malformed
  | present (rows : List Rule)

/-- The deserialization failure `pd.read_pickle` raises on a
present-but-malformed artifact. -/
inductive DataFormatError
  | unpicklingError
deriving DecidableEq, Repr

/-- `load_rules` (`app.py` lines 32-38): a missing artifact raises
`FileNotFoundError`, which is caught and turned into `None`; a malformed
artifact raises a deserialization error that is not caught and
propagates; a readable artifact yields its rows. -/
def load_rules : Artifact → Except DataFormatError (Option (List Rule))
  | .missing => .ok none
  | .malformed => .error .unpicklingError
  | .present rows => .ok (some rows)

/-- `Series.mean`: undefined (`none`, pandas `NaN`) on an empty series. -/
def seriesMean (xs : List ℚ) : Option ℚ :=
  if xs.isEmpty then none else some (xs.sum / xs.length)

/-- `Series.max`: undefined (`none`) on an empty series. -/
def seriesMax (xs : List ℚ) : Option ℚ :=
  xs.max?

/-- The four metric cards of `app.py` lines 74-78. -/
structure Metrics where
  totalRules : Nat
  avgConfidence : Option ℚ
  avgLift : Option ℚ
  maxLift : Option ℚ
deriving DecidableEq, Repr

/-- Compute the metric cards from the filtered view. -/
def computeMetrics (fdf : List Rule) : Metrics :=
  ⟨fdf.length, seriesMean (fdf.map Rule.confidence),
    seriesMean (fdf.map Rule.lift), seriesMax (fdf.map Rule.lift)⟩

/-- The product-recommender section (`app.py` lines 87-98). -/
inductive RecommenderSection
  | noSelection
  | suggestions (shown : List Rule)
  | noAssociations
deriving DecidableEq, Repr

/-- Render the recommender section: with a selected item, show the top
five matching rules by confidence, or an informational notice when the
item has no rules in the filtered view. -/
def recommenderSection (fdf : List Rule) (sel : Option String) : RecommenderSection :=
  match sel with
  | none => .noSelection
  | some item =>
    if (specific_rules fdf item).isEmpty then .noAssociations
    else .suggestions ((specific_rules fdf item).take 5)

/-- The network-graph tab (`app.py` lines 110-133): either the rendered
edge set, or an inline error message when graph construction or drawing
raises (the `except` branch at line 132). -/
inductive GraphSection
  | rendered (es : List Edge)
  | renderError
deriving DecidableEq, Repr

/-- Everything rendered after the two early-exit guards. -/
structure FullPage where
  metrics : Metrics
  recommender : RecommenderSection
  graph : GraphSection
  rawTable : List Rule
deriving DecidableEq, Repr

/-- Outcome of one script run (one session interaction). -/
inductive RenderResult
  /-- An uncaught exception left the script; the runtime shows it as an
  error message and the rest of the page is not rendered. The server
  process keeps running. -/
  | dataFormatFailure
  /-- `st.error` plus `st.stop` at `app.py` lines 66-67. -/
  | missingArtifact
  /-- `st.warning` plus `st.stop` at `app.py` lines 70-71. -/
  | noMatches
  /-- The full page rendered. -/
  | page (p : FullPage)
deriving DecidableEq, Repr

/-- The part of the page after both guards (`app.py` lines 73-141).
`graphRenderFails` is an oracle for whether the drawing code inside the
`try` block raises. -/
def renderPage (fdf : List Rule) (sel : Option String) (graphRenderFails : Bool) : FullPage :=
  ⟨computeMetrics fdf, recommenderSection fdf sel,
    if graphRenderFails then .renderError else .rendered (graph_edges fdf),
    fdf⟩

/-- One full script run of `app.py`: load, filter, guard on a missing
artifact, guard on an empty filtered view, then render the page. -/
def runApp (a : Artifact) (min_sup min_conf min_lift : ℚ)
    (sel : Option String) (graphRenderFails : Bool) : RenderResult :=
  match load_rules a with
  | .error _ => .dataFormatFailure
  | .ok none => .missingArtifact
  | .ok (some rules_df) =>
    let fdf := filtered_df rules_df min_sup min_conf min_lift
    if fdf.isEmpty then .noMatches
    else .page (renderPage fdf sel graphRenderFails)

/-- Demo rule A to B (support 0.05, confidence 0.4, lift 1.2). -/
def ruleAB : Rule := ⟨"A", "B", mkRat 5 100, mkRat 4 10, mkRat 12 10⟩

/-- Demo rule A to C (support 0.05, confidence 0.9, lift 2). -/
def ruleAC : Rule := ⟨"A", "C", mkRat 5 100, mkRat 9 10, 2⟩

/-- Demo rule D to E (support 0.01, confidence 0.1, lift 0.9). -/
def ruleDE : Rule := ⟨"D", "E", mkRat 1 100, mkRat 1 10, mkRat 9 10⟩

/-- Demo store of three rules. -/
def demoStore : List Rule := [ruleAB, ruleAC, ruleDE]

/-- Demo store with a duplicate (antecedent, consequent) pair and two
different lifts. -/
def demoDupStore : List Rule := [⟨"A", "B", 1, 1, 2⟩, ⟨"A", "B", 1, 1, 3⟩]

/-- Tie-case rule A to B: all numeric columns 1. -/
def ruleTie1 : Rule := ⟨"A", "B", 1, 1, 1⟩

/-- Tie-case rule A to C: all numeric columns 1, so it ties with
`ruleTie1` on every sort key. -/
def ruleTie2 : Rule := ⟨"A", "C", 1, 1, 1⟩

/-- Two-row store whose rows tie on confidence and on lift. -/
def tieStore : List Rule := [ruleTie1, ruleTie2]

/-- The item "A". -/
def itemA : String := "A"

/-- The item "B". -/
def itemB : String := "B"

/-- Demo support threshold 0.03. -/
def msD : ℚ := mkRat 3 100

/-- Demo confidence threshold 0.3. -/
def mcD : ℚ := mkRat 3 10

/-- Demo lift threshold 1. -/
def mlD : ℚ := 1

theorem rulePass_iff (ms mc ml : ℚ) (r : Rule) :
    rulePass ms mc ml r = true ↔
      ms ≤ r.support ∧ mc ≤ r.confidence ∧ ml ≤ r.lift := by
  simp [rulePass, Bool.and_eq_true, decide_eq_true_iff, and_assoc]

theorem sorted_sort_values (key : Rule → ℚ) (df : List Rule) :
    (sort_values key df).Pairwise (keyGe key) := by
  unfold sort_values
  rw [List.pairwise_reverse]
  exact List.sorted_insertionSort (keyLe key) df

theorem mem_sort_values (key : Rule → ℚ) (df : List Rule) (r : Rule) :
    r ∈ sort_values key df ↔ r ∈ df := by
  simp [sort_values, List.mem_reverse, List.mem_insertionSort]

theorem perm_sort_values (key : Rule → ℚ) (df : List Rule) :
    (sort_values key df).Perm df :=
  (List.reverse_perm _).trans (List.perm_insertionSort (keyLe key) df)

theorem edgeMatch_self (a c : String) (w : ℚ) : edgeMatch a c (a, c, w) = true := by
  simp [edgeMatch]

theorem find?_map_update (a c : String) (w : ℚ) (es : List Edge)
    (h : es.any (edgeMatch a c) = true) :
    (es.map (fun e => if edgeMatch a c e then (a, c, w) else e)).find?
        (edgeMatch a c) = some (a, c, w) := by
  induction es with
  | nil => simp at h
  | cons e t ih =>
    by_cases he : edgeMatch a c e = true
    · rw [List.map_cons, if_pos he]
      exact List.find?_cons_of_pos _ (edgeMatch_self a c w)
    · rw [List.map_cons, if_neg he]
      rw [List.find?_cons_of_neg _ he]
      apply ih
      simpa [List.any_cons, he] using h

theorem find?_map_update_other (a c a2 c2 : String) (w : ℚ) (es : List Edge)
    (hpair : ¬ (a = a2 ∧ c = c2)) :
    (es.map (fun e => if edgeMatch a c e then (a, c, w) else e)).find?
        (edgeMatch a2 c2) = es.find? (edgeMatch a2 c2) := by
  induction es with
  | nil => rfl
  | cons e t ih =>
    rw [List.map_cons]
    by_cases h2 : edgeMatch a2 c2 e = true
    · have hnot : edgeMatch a c e = false := by
        have h2p : e.1 = a2 ∧ e.2.1 = c2 := by simpa [edgeMatch] using h2
        by_cases hq : edgeMatch a c e = true
        · have hqp : e.1 = a ∧ e.2.1 = c := by simpa [edgeMatch] using hq
          exact absurd ⟨hqp.1.symm.trans h2p.1, hqp.2.symm.trans h2p.2⟩ hpair
        · exact Bool.eq_false_iff.mpr hq
      rw [if_neg (by simp [hnot])]
      rw [List.find?_cons_of_pos _ h2, List.find?_cons_of_pos _ h2]
    · by_cases hq : edgeMatch a c e = true
      · rw [if_pos hq]
        have hnew : edgeMatch a2 c2 (a, c, w) = false := by
          simp only [edgeMatch, decide_eq_false_iff_not]
          intro hcontra
          exact hpair hcontra
        rw [List.find?_cons_of_neg _ (by simp [hnew]),
          List.find?_cons_of_neg _ h2]
        exact ih
      · rw [if_neg hq]
        rw [List.find?_cons_of_neg _ h2, List.find?_cons_of_neg _ h2]
        exact ih

theorem findEdge_add_edge_self (es : List Edge) (a c : String) (w : ℚ) :
    findEdge (add_edge es a c w) a c = some w := by
  unfold add_edge
  by_cases hany : es.any (edgeMatch a c) = true
  · rw [if_pos hany]
    unfold findEdge
    rw [find?_map_update a c w es hany]
    rfl
  · rw [if_neg hany]
    unfold findEdge
    rw [List.find?_append]
    have hnone : es.find? (edgeMatch a c) = none := by
      rw [List.find?_eq_none]
      intro x hx hm
      exact hany (List.any_eq_true.mpr ⟨x, hx, hm⟩)
    rw [hnone, List.find?_cons_of_pos _ (edgeMatch_self a c w)]
    rfl

theorem findEdge_add_edge_other (es : List Edge) (a c a2 c2 : String) (w : ℚ)
    (hpair : ¬ (a = a2 ∧ c = c2)) :
    findEdge (add_edge es a c w) a2 c2 = findEdge es a2 c2 := by
  unfold add_edge
  by_cases hany : es.any (edgeMatch a c) = true
  · rw [if_pos hany]
    unfold findEdge
    rw [find?_map_update_other a c a2 c2 w es hpair]
  · rw [if_neg hany]
    unfold findEdge
    rw [List.find?_append]
    have hlast : [(a, c, w)].find? (edgeMatch a2 c2) = none := by
      rw [List.find?_eq_none]
      intro x hx hm
      rcases List.mem_singleton.mp hx with rfl
      exact hpair (by simpa [edgeMatch] using hm)
    rw [hlast, Option.or_none]

theorem findEdge_foldl (a c : String) (rows : List Rule) : ∀ es : List Edge,
    findEdge (rows.foldl
        (fun es r => add_edge es r.antecedents r.consequents r.lift) es) a c
      = (lastLift rows a c).or (findEdge es a c) := by
  induction rows with
  | nil =>
    intro es
    simp [lastLift]
  | cons r t ih =>
    intro es
    rw [List.foldl_cons, ih]
    by_cases hm : rowMatch a c r = true
    · have hmp : r.antecedents = a ∧ r.consequents = c := by
        simpa [rowMatch] using hm
      rcases hmp with ⟨h1, h2⟩
      cases hlast : t.reverse.find? (rowMatch a c) with
      | some r0 =>
        simp [lastLift, List.reverse_cons, List.find?_append, hlast]
      | none =>
        have hself : findEdge (add_edge es r.antecedents r.consequents r.lift)
            a c = some r.lift := by
          rw [h1, h2]
          exact findEdge_add_edge_self es a c r.lift
        simp [lastLift, List.reverse_cons, List.find?_append, hlast, hm, hself]
    · have hpair : ¬ (r.antecedents = a ∧ r.consequents = c) := by
        intro hcontra
        exact hm (by simpa [rowMatch] using hcontra)
      rw [findEdge_add_edge_other es r.antecedents r.consequents a c r.lift
        hpair]
      have hms : rowMatch a c r = false := Bool.eq_false_iff.mpr hm
      simp [lastLift, List.reverse_cons, List.find?_append, hms]

theorem findEdge_graph_edges (fdf : List Rule) (a c : String) :
    findEdge (graph_edges fdf) a c = lastLift (graph_data fdf) a c := by
  unfold graph_edges
  rw [findEdge_foldl a c (graph_data fdf) []]
  have hnil : findEdge ([] : List Edge) a c = none := rfl
  rw [hnil, Option.or_none]

theorem length_add_edge (es : List Edge) (a c : String) (w : ℚ) :
    (add_edge es a c w).length ≤ es.length + 1 := by
  unfold add_edge
  by_cases hany : es.any (edgeMatch a c) = true
  · rw [if_pos hany, List.length_map]
    exact Nat.le_succ _
  · rw [if_neg hany, List.length_append]
    simp

theorem length_foldl_add_edge (rows : List Rule) : ∀ es : List Edge,
    (rows.foldl
        (fun es r => add_edge es r.antecedents r.consequents r.lift) es).length
      ≤ es.length + rows.length := by
  induction rows with
  | nil => intro es; simp
  | cons r t ih =>
    intro es
    rw [List.foldl_cons]
    calc (t.foldl _ (add_edge es r.antecedents r.consequents r.lift)).length
        ≤ (add_edge es r.antecedents r.consequents r.lift).length + t.length :=
          ih _
      _ ≤ es.length + 1 + t.length := by
          exact Nat.add_le_add_right (length_add_edge es _ _ _) _
      _ = es.length + (t.length + 1) := by omega
      _ = es.length + (r :: t).length := by simp

/-- Claim C1: for every loaded rule store and every triple of thresholds,
the threshold filter keeps exactly the store rows meeting all three
inclusive lower bounds (support, confidence, lift, combined by AND);
any excluded store row violates at least one bound. -/
theorem threshold_filter_exact (rules_df : List Rule) (ms mc ml : ℚ) (r : Rule) :
    r ∈ filtered_df rules_df ms mc ml ↔
      r ∈ rules_df ∧ ms ≤ r.support ∧ mc ≤ r.confidence ∧ ml ≤ r.lift := by
  simp [filtered_df, List.mem_filter, rulePass_iff]

/-- Counterexample to claim C2's stable tie-break: on a view holding two
rules for item A with equal confidence, the lookup returns them in
reversed view order (pandas reverses the ascending argsort), so rows of
equal confidence do not keep their relative order from the filtered
view. -/
theorem recommendation_lookup_tie_counterexample :
    ruleTie1.confidence = ruleTie2.confidence
  ∧ ruleTie1 ≠ ruleTie2
  ∧ tieStore.filter (fun r => decide (r.antecedents = itemA))
      = [ruleTie1, ruleTie2]
  ∧ (specific_rules tieStore itemA).take 5 = [ruleTie2, ruleTie1] := by
  decide

/-- Claim C2 (amended): the recommendation lookup returns at most five
rows, each with the selected antecedent and taken from the filtered
view, sorted by confidence descending (hence non-increasing confidence
across the result); the sorted sequence is a permutation of the matching
subsequence of the view, but the order among equal-confidence rows is
not the view order. -/
theorem recommendation_lookup_amended (fdf : List Rule) (selected_item : String) :
    ((specific_rules fdf selected_item).take 5).length ≤ 5
  ∧ (∀ r, r ∈ (specific_rules fdf selected_item).take 5 →
      r.antecedents = selected_item ∧ r ∈ fdf)
  ∧ ((specific_rules fdf selected_item).take 5).Pairwise
      (fun x y : Rule => y.confidence ≤ x.confidence)
  ∧ (specific_rules fdf selected_item).Perm
      (fdf.filter (fun r => decide (r.antecedents = selected_item))) := by
  refine ⟨List.length_take_le 5 _, ?_, ?_, ?_⟩
  · intro r hr
    have hr2 : r ∈ specific_rules fdf selected_item :=
      (List.take_sublist 5 _).subset hr
    have hr3 : r ∈ fdf.filter (fun r => decide (r.antecedents = selected_item)) := by
      unfold specific_rules at hr2
      exact (mem_sort_values Rule.confidence _ r).mp hr2
    have hsplit := List.mem_filter.mp hr3
    exact ⟨by simpa using hsplit.2, hsplit.1⟩
  · unfold specific_rules
    exact (sorted_sort_values Rule.confidence _).sublist (List.take_sublist 5 _)
  · unfold specific_rules
    exact perm_sort_values Rule.confidence _

/-- Witness for claim C2 (amended) on the demo store: the lookup for
item A keeps the rule A to C, whose antecedent is A and which is a store
row. -/
theorem recommendation_lookup_amended_witness :
    ruleAC ∈ (specific_rules demoStore itemA).take 5
  ∧ ruleAC.antecedents = itemA ∧ ruleAC ∈ demoStore :=
  ⟨by decide, (recommendation_lookup_amended demoStore itemA).2.1 ruleAC (by decide)⟩

/-- Counterexample to claim C3's stable tie-break: on a view of two
equal-lift rows, the lift-descending selection holds them in reversed
view order (pandas reverses the ascending argsort), so equal-lift rows
do not keep their filtered-view order. -/
theorem graph_builder_tie_counterexample :
    ruleTie1.lift = ruleTie2.lift
  ∧ ruleTie1 ≠ ruleTie2
  ∧ graph_data tieStore = [ruleTie2, ruleTie1] := by
  decide

/-- Claim C3 (amended): the graph builder takes the first 20 rows of the
view sorted by lift descending — a lift-descending permutation of the
view, with the order among equal-lift rows not the view order — produces
at most 20 edges, and the weight of the edge from `a` to `c` is exactly
the lift of the last top-20 row with that (antecedent, consequent) pair
in iteration order — the documented overwrite-on-duplicate rule — and
that weight is the lift of an actual source row. -/
theorem graph_builder_amended (fdf : List Rule) (a c : String) :
    (graph_edges fdf).length ≤ 20
  ∧ (graph_data fdf).length ≤ 20
  ∧ (graph_data fdf).Pairwise (fun x y : Rule => y.lift ≤ x.lift)
  ∧ (sort_values Rule.lift fdf).Perm fdf
  ∧ findEdge (graph_edges fdf) a c = lastLift (graph_data fdf) a c
  ∧ (∀ w : ℚ, lastLift (graph_data fdf) a c = some w →
      ∃ r, r ∈ graph_data fdf ∧ r.antecedents = a ∧ r.consequents = c ∧
        r.lift = w) := by
  have hlen : (graph_data fdf).length ≤ 20 := by
    unfold graph_data
    exact List.length_take_le 20 _
  refine ⟨?_, hlen, ?_, perm_sort_values Rule.lift fdf,
    findEdge_graph_edges fdf a c, ?_⟩
  · unfold graph_edges
    exact le_trans (length_foldl_add_edge (graph_data fdf) []) (by simpa using hlen)
  · unfold graph_data
    exact (sorted_sort_values Rule.lift fdf).sublist (List.take_sublist 20 _)
  · intro w hw
    unfold lastLift at hw
    cases hfind : (graph_data fdf).reverse.find? (rowMatch a c) with
    | none => rw [hfind] at hw; simp at hw
    | some r0 =>
      rw [hfind] at hw
      have hlift : r0.lift = w := by simpa using hw
      have hmem : r0 ∈ (graph_data fdf).reverse := List.mem_of_find?_eq_some hfind
      have hmatch : rowMatch a c r0 = true := List.find?_some hfind
      have hm2 : r0.antecedents = a ∧ r0.consequents = c := by
        simpa [rowMatch] using hmatch
      exact ⟨r0, List.mem_reverse.mp hmem, hm2.1, hm2.2, hlift⟩

/-- Witness for claim C3 (amended) on a store with a duplicate (A, B)
pair of lifts 3 and 2: iteration order is lift-descending, so the later
write has lift 2 and the edge weight ends up 2. -/
theorem graph_builder_amended_witness :
    lastLift (graph_data demoDupStore) itemA itemB = some 2
  ∧ findEdge (graph_edges demoDupStore) itemA itemB = some 2 := by
  constructor
  · decide
  · rw [(graph_builder_amended demoDupStore itemA itemB).2.2.2.2.1]
    decide

/-- Claim C4: filtering is order-preserving: if row `a` precedes row `b`
in the store and both pass the thresholds, then `a` precedes `b` in the
filtered view. -/
theorem filtered_df_order_preserving (l1 l2 l3 : List Rule) (a b : Rule)
    (ms mc ml : ℚ) (ha : rulePass ms mc ml a = true)
    (hb : rulePass ms mc ml b = true) :
    filtered_df (l1 ++ a :: (l2 ++ b :: l3)) ms mc ml
      = filtered_df l1 ms mc ml ++ a ::
        (filtered_df l2 ms mc ml ++ b :: filtered_df l3 ms mc ml) := by
  simp [filtered_df, List.filter_append, List.filter_cons, ha, hb]

/-- Witness for claim C4 on the demo store: rules A-B and A-C both pass
the demo thresholds and keep their relative order. -/
theorem filtered_df_order_preserving_witness :
    rulePass msD mcD mlD ruleAB = true
  ∧ rulePass msD mcD mlD ruleAC = true
  ∧ filtered_df ([] ++ ruleAB :: ([] ++ ruleAC :: [ruleDE])) msD mcD mlD
      = filtered_df [] msD mcD mlD ++ ruleAB ::
        (filtered_df [] msD mcD mlD ++ ruleAC :: filtered_df [ruleDE] msD mcD mlD) :=
  ⟨by decide, by decide,
    filtered_df_order_preserving [] [] [ruleDE] ruleAB ruleAC msD mcD mlD
      (by decide) (by decide)⟩

/-- Claim C5: the loader does not raise on a missing artifact; it returns
an explicit absent value (`none`), distinct from a present-but-empty
store (`some []`). -/
theorem load_rules_missing_artifact :
    load_rules Artifact.missing = Except.ok none
  ∧ (∀ e, load_rules Artifact.missing ≠ Except.error e)
  ∧ (∀ rows : List Rule,
      load_rules (Artifact.present rows) = Except.ok (some rows))
  ∧ load_rules Artifact.missing ≠ load_rules (Artifact.present []) := by
  refine ⟨rfl, ?_, fun rows => rfl, ?_⟩
  · intro e
    simp [load_rules]
  · simp [load_rules]

/-- Witness for claim C5: the missing-artifact load is not the
deserialization error. -/
theorem load_rules_missing_artifact_witness :
    load_rules Artifact.missing ≠ Except.error DataFormatError.unpicklingError :=
  load_rules_missing_artifact.2.1 DataFormatError.unpicklingError

/-- Claim C6: a present-but-malformed artifact makes the load fail with
the data-format error; the script run ends in the surfaced-error outcome
and no page content (for any thresholds or selections) is rendered in
that session. -/
theorem malformed_artifact_fatal_for_session (ms mc ml : ℚ)
    (sel : Option String) (g : Bool) :
    load_rules Artifact.malformed = Except.error DataFormatError.unpicklingError
  ∧ runApp Artifact.malformed ms mc ml sel g = RenderResult.dataFormatFailure
  ∧ (∀ p : FullPage,
      runApp Artifact.malformed ms mc ml sel g ≠ RenderResult.page p) := by
  refine ⟨rfl, rfl, ?_⟩
  intro p
  simp [runApp, load_rules]

/-- Witness for claim C6 at concrete thresholds. -/
theorem malformed_artifact_fatal_for_session_witness :
    runApp Artifact.malformed 1 1 1 none false = RenderResult.dataFormatFailure :=
  (malformed_artifact_fatal_for_session 1 1 1 none false).2.1

/-- Claim C7: with a loaded store, the script run ends in the no-matches
notice exactly when the filtered view is empty, and in that case no full
page (recommender, graph, raw table) is ever produced. -/
theorem empty_filtered_view_short_circuits (rows : List Rule) (ms mc ml : ℚ)
    (sel : Option String) (g : Bool) :
    (runApp (Artifact.present rows) ms mc ml sel g = RenderResult.noMatches
      ↔ filtered_df rows ms mc ml = [])
  ∧ (filtered_df rows ms mc ml = [] → ∀ p : FullPage,
      runApp (Artifact.present rows) ms mc ml sel g ≠ RenderResult.page p) := by
  by_cases h : filtered_df rows ms mc ml = [] <;>
    simp [runApp, load_rules, List.isEmpty_iff, h]

/-- Witness for claim C7: thresholds of 1 filter out every demo row and
the run stops at the no-matches notice. -/
theorem empty_filtered_view_short_circuits_witness :
    filtered_df demoStore 1 1 1 = []
  ∧ runApp (Artifact.present demoStore) 1 1 1 none false
      = RenderResult.noMatches :=
  ⟨by decide,
    (empty_filtered_view_short_circuits demoStore 1 1 1 none false).1.mpr
      (by decide)⟩

/-- Claim C8: a graph construction or rendering failure is confined to
the graph section: the run still produces a full page whose graph slot
holds the inline error while metrics, recommender, and raw table are
identical to the non-failing run. -/
theorem graph_failure_is_isolated (rows : List Rule) (ms mc ml : ℚ)
    (sel : Option String) (h : filtered_df rows ms mc ml ≠ []) :
    ∃ pf pok : FullPage,
      runApp (Artifact.present rows) ms mc ml sel true = RenderResult.page pf
    ∧ runApp (Artifact.present rows) ms mc ml sel false = RenderResult.page pok
    ∧ pf.graph = GraphSection.renderError
    ∧ pok.graph = GraphSection.rendered (graph_edges (filtered_df rows ms mc ml))
    ∧ pf.metrics = pok.metrics
    ∧ pf.recommender = pok.recommender
    ∧ pf.rawTable = pok.rawTable := by
  refine ⟨renderPage (filtered_df rows ms mc ml) sel true,
    renderPage (filtered_df rows ms mc ml) sel false,
    ?_, ?_, rfl, rfl, rfl, rfl, rfl⟩ <;>
    simp [runApp, load_rules, List.isEmpty_iff, h]

/-- Witness for claim C8 on the demo store at the demo thresholds. -/
theorem graph_failure_is_isolated_witness :
    filtered_df demoStore msD mcD mlD ≠ []
  ∧ ∃ pf pok : FullPage,
      runApp (Artifact.present demoStore) msD mcD mlD none true
        = RenderResult.page pf
    ∧ runApp (Artifact.present demoStore) msD mcD mlD none false
        = RenderResult.page pok
    ∧ pf.graph = GraphSection.renderError
    ∧ pok.graph
        = GraphSection.rendered (graph_edges (filtered_df demoStore msD mcD mlD))
    ∧ pf.metrics = pok.metrics
    ∧ pf.recommender = pok.recommender
    ∧ pf.rawTable = pok.rawTable :=
  ⟨by decide, graph_failure_is_isolated demoStore msD mcD mlD none (by decide)⟩

/-- Claim C9: a full page is only produced when the filtered view is
non-empty, so the mean and max aggregations behind the metric cards are
always defined (their undefined branch is unreachable). -/
theorem metrics_require_nonempty_view (rows : List Rule) (ms mc ml : ℚ)
    (sel : Option String) (g : Bool) (p : FullPage)
    (h : runApp (Artifact.present rows) ms mc ml sel g = RenderResult.page p) :
    filtered_df rows ms mc ml ≠ []
  ∧ p.metrics = computeMetrics (filtered_df rows ms mc ml)
  ∧ p.metrics.avgConfidence.isSome = true
  ∧ p.metrics.avgLift.isSome = true
  ∧ p.metrics.maxLift.isSome = true := by
  by_cases hne : filtered_df rows ms mc ml = []
  · exfalso
    simp [runApp, load_rules, List.isEmpty_iff, hne] at h
  · have hp : p = renderPage (filtered_df rows ms mc ml) sel g := by
      have h2 := h
      simp [runApp, load_rules, List.isEmpty_iff, hne] at h2
      exact h2.symm
    obtain ⟨x, xs, hfd⟩ := List.exists_cons_of_ne_nil hne
    subst hp
    refine ⟨hne, rfl, ?_, ?_, ?_⟩ <;>
      simp [renderPage, computeMetrics, seriesMean, seriesMax, hfd, List.max?]

/-- Witness for claim C9: the demo run produces a full page from a
non-empty filtered view. -/
theorem metrics_require_nonempty_view_witness :
    runApp (Artifact.present demoStore) msD mcD mlD none false
      = RenderResult.page (renderPage (filtered_df demoStore msD mcD mlD) none false)
  ∧ filtered_df demoStore msD mcD mlD ≠ [] :=
  ⟨rfl,
    (metrics_require_nonempty_view demoStore msD mcD mlD none false
      (renderPage (filtered_df demoStore msD mcD mlD) none false) rfl).1⟩

/-- Claim C10: filtering never rewrites rows: the filtered view is a
subsequence of the store, and each of its rows occurs verbatim (all five
fields unchanged) in the store. -/
theorem filter_preserves_rows (rules_df : List Rule) (ms mc ml : ℚ) :
    List.Sublist (filtered_df rules_df ms mc ml) rules_df
  ∧ ∀ r, r ∈ filtered_df rules_df ms mc ml → r ∈ rules_df := by
  constructor
  · exact List.filter_sublist rules_df
  · intro r hr
    exact (List.mem_filter.mp hr).1

/-- Witness for claim C10: the demo rule A-B survives filtering and is a
verbatim store row. -/
theorem filter_preserves_rows_witness :
    ruleAB ∈ filtered_df demoStore msD mcD mlD ∧ ruleAB ∈ demoStore :=
  ⟨by decide, (filter_preserves_rows demoStore msD mcD mlD).2 ruleAB (by decide)⟩
